import Mathlib

/-
Formal model of the behavioural core of src/app.py (Smart Data Profiler):
the response parser (extract_code, extract_report), the summary builder
(generate_llm_prompt), the delivery notifier (send_to_webhook) and the
analyze-button pipeline step that executes the generated snippet and
updates the session state.

Python strings are modelled as List Char; the String-typed wrappers mirror
the source signatures.  Python str.split(sep) is modelled by splitOnL,
str.strip() by stripL, and the substring test (the in operator) by
occursIn.  Machine floats do not occur in the modelled logic; pandas
percentages are modelled over the rationals.
-/

/-- ASCII whitespace recognised by Python str.strip (the inputs the claims
exercise contain only ASCII whitespace). -/
def isPyWS (c : Char) : Bool :=
  c = ' ' || c = '\t' || c = '\n' || c = '\r' || c = '\x0b' || c = '\x0c'

/-- Model of Python str.strip(): drop leading and trailing whitespace. -/
def stripL (s : List Char) : List Char :=
  ((s.dropWhile isPyWS).reverse.dropWhile isPyWS).reverse

/-- Condition under which a Python scan of the string recognises sep at the
current position: sep is a nonempty pattern and a literal head of s. -/
def hitAt (sep s : List Char) : Bool := sep.isPrefixOf s && !sep.isEmpty

/-- Model of the Python substring test (sep in s), for nonempty sep: sep
occurs at some position of s. -/
def occursIn (sep : List Char) : List Char → Bool
  | [] => sep.isEmpty
  | c :: cs => hitAt sep (c :: cs) || occursIn sep cs

/-- Text strictly before the first occurrence of sep (all of s when sep does
not occur): element 0 of a Python split. -/
def takeUntil (sep : List Char) : List Char → List Char
  | [] => []
  | c :: cs => if hitAt sep (c :: cs) then [] else c :: takeUntil sep cs

/-- Text strictly after the first occurrence of sep ([] when sep does not
occur): the remainder a Python split keeps scanning. -/
def dropAfterFirst (sep : List Char) : List Char → List Char
  | [] => []
  | c :: cs => if hitAt sep (c :: cs) then (c :: cs).drop sep.length else dropAfterFirst sep cs

/-- Model of Python str.split(sep) for nonempty sep: the list of segments of
s between consecutive non-overlapping occurrences of sep, scanned left to
right. -/
def splitOnL (sep : List Char) : List Char → List (List Char)
  | [] => [[]]
  | c :: cs =>
    if h : hitAt sep (c :: cs) = true then
      [] :: splitOnL sep ((c :: cs).drop sep.length)
    else
      match splitOnL sep cs with
      | [] => [[c]]
      | hd :: tl => (c :: hd) :: tl
termination_by s => s.length
decreasing_by
  · simp only [hitAt, Bool.and_eq_true, Bool.not_eq_true', List.isEmpty_eq_false] at h
    have hpos : 0 < sep.length := List.length_pos.mpr h.2
    simp only [List.length_drop, List.length_cons]
    omega
  · simp

/-- The opening fence marker of src/app.py line 66. -/
def openMarkL : List Char := "```python".data

/-- The closing fence marker of src/app.py line 66. -/
def closeMarkL : List Char := "```".data

/-- The rationale section header of src/app.py line 71. -/
def rationaleHeaderL : List Char := "RATIONALE:".data

/-- Model of extract_code (src/app.py lines 64-68) on character lists:
text.split("```python")[1].split("```")[0].strip(), where the bare except
maps the IndexError raised when the first split has fewer than two
elements (the opening marker is absent) to the empty string.  Index [1] is
the second element of the split and index [0] its first element, which
always exists. -/
def extract_codeL (text : List Char) : List Char :=
  match splitOnL openMarkL text with
  | _ :: second :: _ => stripL ((splitOnL closeMarkL second).headD [])
  | _ => []

/-- Model of extract_report (src/app.py lines 70-73) on character lists:
if "RATIONALE:" occurs in text, text.split("```python")[0].strip(),
otherwise the fixed fallback string. -/
def fallbackReportL : List Char :=
  "Report generated successfully. Review the code below.".data

/-- Model of extract_report (src/app.py lines 70-73), see fallbackReportL. -/
def extract_reportL (text : List Char) : List Char :=
  if occursIn rationaleHeaderL text then stripL ((splitOnL openMarkL text).headD [])
  else fallbackReportL

/-- String-typed wrapper with the signature of the source function
extract_code (src/app.py lines 64-68). -/
def extract_code (text : String) : String := String.mk (extract_codeL text.data)

/-- String-typed wrapper with the signature of the source function
extract_report (src/app.py lines 70-73). -/
def extract_report (text : String) : String := String.mk (extract_reportL text.data)

/-- A cell value of a table: pandas cells in this app are integers, floats,
text, booleans, or the missing marker NaN. -/
inductive Value where
  | int (i : Int)
  | real (q : ℚ)
  | text (s : String)
  | bool (b : Bool)
  | missing
deriving DecidableEq

/-- Test for the missing marker: models pandas isnull on a cell. -/
def isMissing : Value → Bool
  | .missing => true
  | _ => false

/-- Model of a pandas DataFrame as loaded by read_csv: named columns with
their dtypes, and rows of cells (each row lists the cells in column
order). -/
structure DataFrame where
  cols : List String
  dtypes : List String
  rows : List (List Value)
deriving DecidableEq

/-- Model of df.head(n): the first n rows. -/
def headDF (df : DataFrame) (n : Nat) : DataFrame :=
  { df with rows := df.rows.take n }

/-- The cells of column index j, top to bottom: models df[col] for the
column at position j. -/
def colValues (df : DataFrame) (j : Nat) : List Value :=
  df.rows.map (fun r => r.getD j Value.missing)

/-- Model of df.isnull().sum() for column index j: the number of rows whose
cell in that column is missing (src/app.py line 42). -/
def colMissingCount (df : DataFrame) (j : Nat) : Nat :=
  (colValues df j).countP isMissing

/-- Model of pandas Series.round(2) on an exact rational: round to two
decimal places.  (pandas rounds ties to even on floats; no value the
claims exercise is a tie.) -/
def round2 (q : ℚ) : ℚ := (round (q * 100) : ℤ) / 100

/-- Model of src/app.py line 43: the per-column missing percentages,
restricted to the columns with at least one missing value, in column
order: (missing_data[missing_data > 0] / len(df) * 100).round(2).  The
division is elementwise over the filtered series, so with zero rows no
division is ever performed. -/
def missingPct (df : DataFrame) : List (String × ℚ) :=
  df.cols.enum.filterMap fun p =>
    let m := colMissingCount df p.1
    if 0 < m then
      some (p.2, round2 ((m : ℚ) / (df.rows.length : ℚ) * 100))
    else none

/-- Rendering of one cell for the markdown summaries.  Abstract model of
the pandas to_markdown cell text; no claim depends on its exact form. -/
def mdValue : Value → String
  | .int i => toString i
  | .real q => toString q
  | .text s => s
  | .bool b => toString b
  | .missing => "nan"

/-- One pipe-separated markdown row.  Abstract model of a to_markdown line. -/
def mdRowLine (cells : List String) : String :=
  "| " ++ String.intercalate " | " cells ++ " |"

/-- Abstract model of df.head(5).to_markdown(index=False)
(src/app.py line 40). -/
def initial_summary (df : DataFrame) : String :=
  String.intercalate "\n"
    (mdRowLine df.cols :: mdRowLine (df.cols.map fun _ => "---")
      :: (headDF df 5).rows.map fun r => mdRowLine (r.map mdValue))

/-- Abstract model of df.dtypes.to_frame(name=Dtype).to_markdown()
(src/app.py line 41). -/
def dtype_summary (df : DataFrame) : String :=
  String.intercalate "\n"
    (mdRowLine ["", "Dtype"] :: mdRowLine ["---", "---"]
      :: (df.cols.zip df.dtypes).map fun p => mdRowLine [p.1, p.2])

/-- Abstract model of missing_pct.to_frame(name=Missing_Percentage)
.to_markdown() (src/app.py line 44), applied to the entries of
missingPct: with no entries the rendered table has a header and no data
rows. -/
def renderMissing (entries : List (String × ℚ)) : String :=
  String.intercalate "\n"
    (mdRowLine ["", "Missing_Percentage"] :: mdRowLine ["---", "---"]
      :: entries.map fun p => mdRowLine [p.1, toString p.2])

/-- The missing-data section body of the prompt (src/app.py line 44). -/
def missing_summary (df : DataFrame) : String := renderMissing (missingPct df)

/-- Model of generate_llm_prompt (src/app.py lines 38-62): the fixed
f-string template with the three computed summaries interpolated. -/
def generate_llm_prompt (df : DataFrame) : String :=
  "\nYou are an expert Data Profiler and Python Data Cleaning Agent.\nYour task is to analyze the data and generate a single Python code block to clean the DataFrame named \x27df\x27.\n\nSTRUCTURE:\n1. **RATIONALE:** Detailed markdown report on data issues.\n2. **CODE BLOCK:** One Python block starting with ```python and ending with ```.\n\nDATA SUMMARY:\n"
    ++ initial_summary df
    ++ "\n\nDTYPES:\n" ++ dtype_summary df
    ++ "\n\nMISSING DATA:\n" ++ missing_summary df ++ "\n"

/-- A wall-clock instant as read by time.strftime: year, month, day, hour,
minute, second. -/
structure Timestamp where
  year : Nat
  month : Nat
  day : Nat
  hour : Nat
  minute : Nat
  second : Nat
deriving DecidableEq

/-- The last decimal digit of n as a character. -/
def digitChar (n : Nat) : Char :=
  match n % 10 with
  | 0 => '0' | 1 => '1' | 2 => '2' | 3 => '3' | 4 => '4'
  | 5 => '5' | 6 => '6' | 7 => '7' | 8 => '8' | _ => '9'

/-- Two-digit zero-padded decimal rendering (the %m %d %H %M %S fields). -/
def pad2 (n : Nat) : List Char := [digitChar (n / 10), digitChar n]

/-- Four-digit zero-padded decimal rendering (the %Y field; faithful for
years below 10000, which is the only divergence from strftime). -/
def pad4 (n : Nat) : List Char :=
  [digitChar (n / 1000), digitChar (n / 100), digitChar (n / 10), digitChar n]

/-- Model of time.strftime("%Y-%m-%d %H:%M:%S", t) (src/app.py line 80). -/
def strftimeFmt (t : Timestamp) : String :=
  String.mk (pad4 t.year ++ '-' :: pad2 t.month ++ '-' :: pad2 t.day
    ++ ' ' :: pad2 t.hour ++ ':' :: pad2 t.minute ++ ':' :: pad2 t.second)

/-- One serialized row: the key/value record produced for a row by
dataframe.to_dict(orient=records), pairing each column name with the cell
of that row. -/
def toRecords (df : DataFrame) : List (List (String × Value)) :=
  df.rows.map fun r => df.cols.zip r

/-- The JSON envelope posted to the webhook (src/app.py lines 78-82). -/
structure Payload where
  source : String
  timestamp : String
  data : List (List (String × Value))
deriving DecidableEq

/-- The outbound HTTP POST issued by requests.post (src/app.py line 83):
destination, JSON body, and the timeout argument in seconds. -/
structure WebhookRequest where
  url : String
  body : Payload
  timeoutSeconds : Nat
deriving DecidableEq

/-- Outcome of the single POST as the caller observes it: an HTTP response
with a status code, or a transport-level failure (connection error,
timeout, ...) that raises inside the try block. -/
inductive PostResult where
  | response (status : Nat)
  | transportError (msg : String)
deriving DecidableEq

/-- The request send_to_webhook builds before posting (src/app.py lines
77-83): head(100) rows serialized to records, wrapped with the fixed
source tag and the formatted current time, timeout 10. -/
def webhookRequest (df : DataFrame) (now : Timestamp) (url : String) : WebhookRequest :=
  { url := url
    body :=
      { source := "Smart Data Profiler App"
        timestamp := strftimeFmt now
        data := toRecords (headDF df 100) }
    timeoutSeconds := 10 }

/-- Model of send_to_webhook (src/app.py lines 75-87).  The network is an
explicit parameter post mapping the one issued request to its outcome;
the function posts exactly once, returns status == 200 on a response, and
the except branch maps any transport failure to False after logging. -/
def send_to_webhook (df : DataFrame) (now : Timestamp) (url : String)
    (post : WebhookRequest → PostResult) : Bool :=
  match post (webhookRequest df now url) with
  | .response status => status == 200
  | .transportError _ => false

/-- Outcome of executing a snippet against the table copy: the mutated
table, or the runtime error message. -/
inductive ExecOutcome where
  | success (df : DataFrame)
  | error (msg : String)
deriving DecidableEq

/-- The column mean ignoring missing cells: models Series.mean(), which
skips NaN.  (With every cell missing pandas fills with NaN, modelled by
fillnaMean leaving such a column unchanged.) -/
def colMean (df : DataFrame) (j : Nat) : ℚ :=
  let xs := (colValues df j).filterMap fun v =>
    match v with
    | .int i => some (i : ℚ)
    | .real q => some q
    | _ => none
  xs.sum / (xs.length : ℚ)

/-- Model of the pandas statement df[c] = df[c].fillna(df[c].mean()):
replace each missing cell of column c by the mean of its non-missing
cells (a float, hence Value.real); other cells and columns unchanged. -/
def fillnaMean (df : DataFrame) (c : String) : DataFrame :=
  match df.cols.findIdx? (fun x => x == c) with
  | none => df
  | some j =>
    let xs := (colValues df j).filterMap fun v =>
      match v with
      | .int i => some (i : ℚ)
      | .real q => some q
      | _ => none
    if xs.isEmpty then df
    else
      { df with
        rows := df.rows.map fun r =>
          match r.getD j Value.missing with
          | .missing => r.set j (Value.real (colMean df j))
          | _ => r }

/-- The snippet string of the end-to-end scenario of the spec. -/
def fillnaAgeSnippet : String :=
  "df[\x27age\x27] = df[\x27age\x27].fillna(df[\x27age\x27].mean())"

/-- Modelled from the runtime semantics of Python exec over the restricted
binding set (pd, np, df) of src/app.py line 123, which is not itself code
of this repository: the empty program is a no-op, the fillna-mean
one-liner of the spec scenario transforms the bound table as fillnaMean
does (a KeyError if the column is absent), and every other program is an
unmodelled external behaviour represented as a runtime failure. -/
def execPython (code : String) (df : DataFrame) : ExecOutcome :=
  if code = "" then .success df
  else if code = fillnaAgeSnippet then
    if df.cols.contains "age" then .success (fillnaMean df "age")
    else .error "KeyError: age"
  else .error "unmodelled snippet"

/-- The per-session key/value store fields the analyze pipeline touches
(st.session_state in src/app.py lines 99-128). -/
structure Session where
  df_original : DataFrame
  df_clean : Option DataFrame
  report_text : Option String
  cleaning_code : Option String
deriving DecidableEq

/-- Model of the analyze-button pipeline step (src/app.py lines 118-133)
from the point where the LLM response text is in hand: extract the
snippet and the rationale, execute the snippet against a copy of the
original table (the exec semantics is the parameter execFn), and on
success write the three session keys; the except arm writes nothing and
surfaces the error message.  The second component is the surfaced error
(none on the success path). -/
def runAnalysis (execFn : String → DataFrame → ExecOutcome) (s : Session)
    (responseText : String) : Session × Option String :=
  let cleaning_code := extract_code responseText
  let report_text := extract_report responseText
  let df_clean := s.df_original
  match execFn cleaning_code df_clean with
  | .success dfc =>
    ({ s with
        df_clean := some dfc
        report_text := some report_text
        cleaning_code := some cleaning_code }, none)
  | .error e => (s, some e)

/-- The end-to-end scenario table of the spec: columns id, name, age with
three rows and one missing age.  The age column, holding a NaN, is read
by pandas as float64 with the present values as floats. -/
def dfScenario : DataFrame :=
  { cols := ["id", "name", "age"]
    dtypes := ["int64", "object", "float64"]
    rows :=
      [[Value.int 1, Value.text "Alice", Value.real 25],
       [Value.int 2, Value.text "Bob", Value.missing],
       [Value.int 3, Value.text "Carol", Value.real 30]] }

/-
Helper lemmas about the string scan primitives.  splitOnL is defined by
well-founded recursion, so all later reasoning and all concrete
evaluation go through the structural characterisations proved here.
-/

theorem hitAt_eq_of_ne {sep : List Char} (hsep : sep ≠ []) (s : List Char) :
    hitAt sep s = sep.isPrefixOf s := by
  simp [hitAt, List.isEmpty_eq_false.mpr hsep]

theorem occursIn_nil_of_ne {sep : List Char} (hsep : sep ≠ []) :
    occursIn sep [] = false := by
  simp [occursIn, List.isEmpty_eq_false.mpr hsep]

theorem takeUntil_of_not_occurs {sep s : List Char} (h : occursIn sep s = false) :
    takeUntil sep s = s := by
  induction s with
  | nil => rfl
  | cons c cs ih =>
    simp only [occursIn, Bool.or_eq_false_iff] at h
    simp [takeUntil, h.1, ih h.2]

theorem splitOnL_eq {sep : List Char} (hsep : sep ≠ []) (s : List Char) :
    splitOnL sep s =
      if occursIn sep s then takeUntil sep s :: splitOnL sep (dropAfterFirst sep s)
      else [s] := by
  induction s with
  | nil =>
    rw [occursIn_nil_of_ne hsep]
    simp [splitOnL]
  | cons c cs ih =>
    cases hh : hitAt sep (c :: cs) with
    | true =>
      have hocc : occursIn sep (c :: cs) = true := by simp [occursIn, hh]
      simp only [splitOnL, hh]
      rw [hocc]
      simp [takeUntil, dropAfterFirst, hh]
    | false =>
      have hocc : occursIn sep (c :: cs) = occursIn sep cs := by simp [occursIn, hh]
      simp only [splitOnL, hh]
      rw [ih, hocc]
      cases hocc2 : occursIn sep cs with
      | true => simp [takeUntil, dropAfterFirst, hh]
      | false => simp [takeUntil, dropAfterFirst, hh, takeUntil_of_not_occurs hocc2]

theorem splitOnL_head {sep : List Char} (hsep : sep ≠ []) (s : List Char) :
    ∃ tl, splitOnL sep s = takeUntil sep s :: tl := by
  rw [splitOnL_eq hsep s]
  cases hocc : occursIn sep s with
  | true => exact ⟨splitOnL sep (dropAfterFirst sep s), by simp⟩
  | false => exact ⟨[], by simp [takeUntil_of_not_occurs hocc]⟩

theorem openMarkL_ne : openMarkL ≠ [] := by decide

theorem closeMarkL_ne : closeMarkL ≠ [] := by decide

theorem rationaleHeaderL_ne : rationaleHeaderL ≠ [] := by decide

theorem extract_codeL_eq (text : List Char) :
    extract_codeL text =
      if occursIn openMarkL text then
        stripL (takeUntil closeMarkL (takeUntil openMarkL (dropAfterFirst openMarkL text)))
      else [] := by
  cases hocc : occursIn openMarkL text with
  | false =>
    unfold extract_codeL
    rw [splitOnL_eq openMarkL_ne text, hocc]
    simp
  | true =>
    unfold extract_codeL
    rw [splitOnL_eq openMarkL_ne text, hocc]
    obtain ⟨tl, htl⟩ := splitOnL_head openMarkL_ne (dropAfterFirst openMarkL text)
    rw [htl]
    obtain ⟨tl2, htl2⟩ :=
      splitOnL_head closeMarkL_ne (takeUntil openMarkL (dropAfterFirst openMarkL text))
    simp [htl2]

theorem extract_reportL_eq (text : List Char) :
    extract_reportL text =
      if occursIn rationaleHeaderL text then stripL (takeUntil openMarkL text)
      else fallbackReportL := by
  cases hocc : occursIn rationaleHeaderL text with
  | false => simp [extract_reportL, hocc]
  | true =>
    obtain ⟨tl, htl⟩ := splitOnL_head openMarkL_ne text
    simp [extract_reportL, hocc, htl]

theorem occursIn_of_hit {sep s : List Char} (h : hitAt sep s = true) :
    occursIn sep s = true := by
  cases s with
  | nil => cases sep <;> simp [hitAt, List.isPrefixOf] at h
  | cons c cs => simp [occursIn, h]

theorem occursIn_cons_of {sep cs : List Char} (c : Char)
    (h : occursIn sep cs = true) : occursIn sep (c :: cs) = true := by
  simp [occursIn, h]

theorem occursIn_append_of_right {sep t : List Char} (u : List Char)
    (h : occursIn sep t = true) : occursIn sep (u ++ t) = true := by
  induction u with
  | nil => simpa
  | cons c cs ih =>
    rw [List.cons_append]
    exact occursIn_cons_of c ih

theorem hitAt_append_right {sep t : List Char} (v : List Char) (h : hitAt sep t = true) :
    hitAt sep (t ++ v) = true := by
  simp only [hitAt, Bool.and_eq_true, List.isPrefixOf_iff_prefix] at h ⊢
  exact ⟨h.1.trans (List.prefix_append t v), h.2⟩

theorem occursIn_append_of_left {sep t : List Char} (hsep : sep ≠ []) (v : List Char)
    (h : occursIn sep t = true) : occursIn sep (t ++ v) = true := by
  induction t with
  | nil => rw [occursIn_nil_of_ne hsep] at h; exact absurd h (by simp)
  | cons c cs ih =>
    simp only [occursIn, Bool.or_eq_true] at h
    rw [List.cons_append]
    simp only [occursIn, Bool.or_eq_true]
    rcases h with h | h
    · exact Or.inl (by rw [← List.cons_append]; exact hitAt_append_right v h)
    · exact Or.inr (ih h)

theorem takeUntil_isPrefix (sep s : List Char) : takeUntil sep s <+: s := by
  induction s with
  | nil => simp [takeUntil]
  | cons c cs ih =>
    cases hh : hitAt sep (c :: cs) with
    | true => simp [takeUntil, hh]
    | false => simp [takeUntil, hh, List.cons_prefix_cons, ih]

theorem occursIn_takeUntil {sep : List Char} (hsep : sep ≠ []) (s : List Char) :
    occursIn sep (takeUntil sep s) = false := by
  induction s with
  | nil => simpa [takeUntil] using occursIn_nil_of_ne hsep
  | cons c cs ih =>
    cases hh : hitAt sep (c :: cs) with
    | true => simpa [takeUntil, hh] using occursIn_nil_of_ne hsep
    | false =>
      simp only [takeUntil, hh, Bool.false_eq_true, if_false]
      simp only [occursIn, Bool.or_eq_false_iff]
      refine ⟨?_, ih⟩
      cases hha : hitAt sep (c :: takeUntil sep cs) with
      | false => rfl
      | true =>
        exfalso
        have hpre : takeUntil sep cs <+: cs := takeUntil_isPrefix sep cs
        have hcc : hitAt sep (c :: cs) = true := by
          simp only [hitAt, Bool.and_eq_true, List.isPrefixOf_iff_prefix] at hha ⊢
          exact ⟨hha.1.trans (List.cons_prefix_cons.mpr ⟨rfl, hpre⟩), hha.2⟩
        rw [hcc] at hh
        exact Bool.noConfusion hh

theorem hitAt_mono {sub sep s : List Char} (hps : sub.isPrefixOf sep = true)
    (hsub : sub ≠ []) (h : hitAt sep s = true) : hitAt sub s = true := by
  have h1 : sub <+: sep := List.isPrefixOf_iff_prefix.mp hps
  simp only [hitAt, Bool.and_eq_true, List.isPrefixOf_iff_prefix,
    Bool.not_eq_true', List.isEmpty_eq_false] at h ⊢
  exact ⟨h1.trans h.1, hsub⟩

theorem occursIn_mono {sub sep s : List Char} (hps : sub.isPrefixOf sep = true)
    (hsub : sub ≠ []) (h : occursIn sep s = true) : occursIn sub s = true := by
  induction s with
  | nil =>
    simp only [occursIn, List.isEmpty_iff] at h
    subst h
    cases sub with
    | nil => exact absurd rfl hsub
    | cons a as => simp [List.isPrefixOf] at hps
  | cons c cs ih =>
    simp only [occursIn, Bool.or_eq_true] at h ⊢
    rcases h with h | h
    · exact Or.inl (hitAt_mono hps hsub h)
    · exact Or.inr (ih h)

theorem dropWhile_head_false {p : Char → Bool} {l : List Char} {c : Char} {t : List Char}
    (h : l.dropWhile p = c :: t) : p c = false := by
  induction l with
  | nil => simp [List.dropWhile] at h
  | cons a as ih =>
    by_cases hp : p a = true
    · rw [List.dropWhile_cons, if_pos hp] at h
      exact ih h
    · rw [List.dropWhile_cons, if_neg hp] at h
      cases h
      simpa using hp

theorem dropWhile_self_idem (p : Char → Bool) (l : List Char) :
    (l.dropWhile p).dropWhile p = l.dropWhile p := by
  cases h : l.dropWhile p with
  | nil => simp
  | cons c t =>
    rw [List.dropWhile_cons, if_neg (by simp [dropWhile_head_false h])]

theorem stripL_prefix_dropWhile (s : List Char) :
    stripL s <+: (s.dropWhile isPyWS) := by
  have h2 : ((s.dropWhile isPyWS).reverse.dropWhile isPyWS) <:+ (s.dropWhile isPyWS).reverse :=
    List.dropWhile_suffix isPyWS
  have h3 := List.reverse_prefix.mpr h2
  rwa [List.reverse_reverse] at h3

theorem stripL_decomp (s : List Char) : ∃ u v, s = u ++ (stripL s ++ v) := by
  obtain ⟨u, hu⟩ := List.dropWhile_suffix (l := s) isPyWS
  obtain ⟨v, hv⟩ := stripL_prefix_dropWhile s
  exact ⟨u, v, by rw [hv, hu]⟩

theorem occursIn_of_stripL {sep s : List Char} (hsep : sep ≠ [])
    (h : occursIn sep (stripL s) = true) : occursIn sep s = true := by
  obtain ⟨u, v, huv⟩ := stripL_decomp s
  rw [huv]
  exact occursIn_append_of_right u (occursIn_append_of_left hsep v h)

theorem dropWhile_stripL (s : List Char) : (stripL s).dropWhile isPyWS = stripL s := by
  cases hc : stripL s with
  | nil => simp
  | cons c t =>
    obtain ⟨v, hv⟩ := stripL_prefix_dropWhile s
    rw [hc] at hv
    have : s.dropWhile isPyWS = c :: (t ++ v) := by rw [← hv]; simp
    have hcf : isPyWS c = false := dropWhile_head_false this
    rw [List.dropWhile_cons, if_neg (by simp [hcf])]

theorem stripL_idem (s : List Char) : stripL (stripL s) = stripL s := by
  have hrev : (stripL s).reverse = (s.dropWhile isPyWS).reverse.dropWhile isPyWS := by
    simp [stripL]
  show (((stripL s).dropWhile isPyWS).reverse.dropWhile isPyWS).reverse = stripL s
  rw [dropWhile_stripL, hrev, dropWhile_self_idem]
  rfl

theorem backtick_eq : closeMarkL = ['\x60', '\x60', '\x60'] := by decide

theorem prefix_append_of_length_le {a l r : List Char} (h : a <+: l ++ r)
    (hlen : a.length ≤ l.length) : a <+: l := by
  rw [List.prefix_iff_eq_take] at h ⊢
  rw [List.take_append_of_le_length hlen] at h
  exact h

theorem no_open_in_inner_close {inner : List Char}
    (h : occursIn closeMarkL inner = false) :
    occursIn openMarkL (inner ++ closeMarkL) = false := by
  induction inner with
  | nil =>
    rw [List.nil_append]
    decide
  | cons c cs ih =>
    simp only [occursIn, Bool.or_eq_false_iff] at h
    rw [List.cons_append]
    simp only [occursIn, Bool.or_eq_false_iff]
    refine ⟨?_, ih h.2⟩
    cases hha : hitAt openMarkL (c :: (cs ++ closeMarkL)) with
    | false => rfl
    | true =>
      exfalso
      have hpre : openMarkL <+: c :: (cs ++ closeMarkL) := by
        simp only [hitAt, Bool.and_eq_true, List.isPrefixOf_iff_prefix] at hha
        exact hha.1
      have hlen : 5 ≤ cs.length := by
        have hle := hpre.length_le
        have h9 : openMarkL.length = 9 := by decide
        have h3 : closeMarkL.length = 3 := by decide
        simp only [List.length_cons, List.length_append, h9, h3] at hle
        omega
      have hclo : closeMarkL <+: c :: (cs ++ closeMarkL) :=
        (List.isPrefixOf_iff_prefix.mp
          (by decide : closeMarkL.isPrefixOf openMarkL = true)).trans hpre
      have hclo2 : closeMarkL <+: c :: cs := by
        rw [← List.cons_append] at hclo
        refine prefix_append_of_length_le hclo ?_
        have h3 : closeMarkL.length = 3 := by decide
        simp only [List.length_cons, h3]
        omega
      have hhit : hitAt closeMarkL (c :: cs) = true := by
        simp only [hitAt, Bool.and_eq_true, List.isPrefixOf_iff_prefix]
        exact ⟨hclo2, by decide⟩
      rw [hhit] at h
      exact Bool.noConfusion h.1

theorem takeUntil_inner_close {inner : List Char}
    (h : occursIn closeMarkL inner = false)
    (hLast : inner.getLast? ≠ some '\x60') :
    takeUntil closeMarkL (inner ++ closeMarkL) = inner := by
  induction inner with
  | nil =>
    rw [List.nil_append]
    decide
  | cons c cs ih =>
    simp only [occursIn, Bool.or_eq_false_iff] at h
    have hhit : hitAt closeMarkL (c :: (cs ++ closeMarkL)) = false := by
      cases hha : hitAt closeMarkL (c :: (cs ++ closeMarkL)) with
      | false => rfl
      | true =>
        exfalso
        have hpre : closeMarkL <+: c :: (cs ++ closeMarkL) := by
          simp only [hitAt, Bool.and_eq_true, List.isPrefixOf_iff_prefix] at hha
          exact hha.1
        rw [backtick_eq] at hpre
        cases cs with
        | nil =>
          simp only [List.nil_append, List.cons_prefix_cons] at hpre
          exact hLast (by simp [← hpre.1])
        | cons d cs1 =>
          cases cs1 with
          | nil =>
            simp only [List.cons_append, List.nil_append, List.cons_prefix_cons] at hpre
            exact hLast (by simp [List.getLast?, ← hpre.2.1])
          | cons e cs2 =>
            simp only [List.cons_append, List.cons_prefix_cons] at hpre
            have hhit2 : hitAt closeMarkL (c :: d :: e :: cs2) = true := by
              simp only [hitAt, Bool.and_eq_true, List.isPrefixOf_iff_prefix, backtick_eq]
              refine ⟨?_, by decide⟩
              simp [List.cons_prefix_cons, ← hpre.1, ← hpre.2.1, ← hpre.2.2.1]
            rw [hhit2] at h
            exact Bool.noConfusion h.1
    have hLast2 : cs.getLast? ≠ some '\x60' := by
      cases cs with
      | nil => simp
      | cons d cs1 =>
        rw [List.getLast?_cons_cons] at hLast
        exact hLast
    rw [List.cons_append]
    simp only [takeUntil, hhit, Bool.false_eq_true, if_false]
    rw [ih h.2 hLast2]

theorem dropAfterFirst_append_self {sep : List Char} (hsep : sep ≠ []) (x : List Char) :
    dropAfterFirst sep (sep ++ x) = x := by
  cases sep with
  | nil => exact absurd rfl hsep
  | cons d ds =>
    rw [List.cons_append]
    have hh : hitAt (d :: ds) (d :: (ds ++ x)) = true := by
      simp only [hitAt, Bool.and_eq_true, List.isPrefixOf_iff_prefix]
      refine ⟨?_, by simp⟩
      rw [← List.cons_append]
      exact List.prefix_append _ _
    simp only [dropAfterFirst, hh, if_true]
    rw [← List.cons_append, List.drop_left]

theorem extract_code_wrap {inner : List Char}
    (hocc : occursIn closeMarkL inner = false)
    (hLast : inner.getLast? ≠ some '\x60') :
    extract_codeL (openMarkL ++ (inner ++ closeMarkL)) = stripL inner := by
  have h1 : occursIn openMarkL (openMarkL ++ (inner ++ closeMarkL)) = true := by
    apply occursIn_of_hit
    simp only [hitAt, Bool.and_eq_true, List.isPrefixOf_iff_prefix]
    exact ⟨List.prefix_append _ _, by decide⟩
  rw [extract_codeL_eq, h1, if_pos rfl]
  rw [dropAfterFirst_append_self openMarkL_ne]
  rw [takeUntil_of_not_occurs (no_open_in_inner_close hocc)]
  rw [takeUntil_inner_close hocc hLast]

theorem extract_codeL_no_close (text : List Char) :
    occursIn closeMarkL (extract_codeL text) = false := by
  rw [extract_codeL_eq]
  cases hocc : occursIn openMarkL text with
  | false =>
    simp only [Bool.false_eq_true, if_false]
    exact occursIn_nil_of_ne closeMarkL_ne
  | true =>
    rw [if_pos rfl]
    cases h2 : occursIn closeMarkL
        (stripL (takeUntil closeMarkL (takeUntil openMarkL (dropAfterFirst openMarkL text)))) with
    | false => rfl
    | true =>
      exfalso
      have h3 := occursIn_of_stripL closeMarkL_ne h2
      rw [occursIn_takeUntil closeMarkL_ne] at h3
      exact Bool.noConfusion h3

theorem extract_codeL_stripped (text : List Char) :
    stripL (extract_codeL text) = extract_codeL text := by
  rw [extract_codeL_eq]
  cases hocc : occursIn openMarkL text with
  | false =>
    simp only [Bool.false_eq_true, if_false]
    rfl
  | true =>
    rw [if_pos rfl]
    exact stripL_idem _

theorem mk_eq_iff_data {l : List Char} {t : String} : String.mk l = t ↔ l = t.data := by
  rw [String.ext_iff]

/-
Claim theorems.  Each claim of the specification audit is settled below;
counterexamples are closed evaluations at explicit inputs, and amended
statements are proved in full generality.
-/

/-- Claim C1, counterexample: the input below contains the opening fence
marker and no closing fence marker after it, yet extract_code returns
"x" (the trimmed remainder after the opening marker), not the empty
string the claim requires. -/
theorem claim_C1_counterexample :
    occursIn openMarkL "```python x".data = true ∧
    occursIn closeMarkL (dropAfterFirst openMarkL "```python x".data) = false ∧
    extract_code "```python x" = "x" ∧ ("x" : String) ≠ "" := by
  refine ⟨by decide, by decide, ?_, by decide⟩
  show String.mk (extract_codeL "```python x".data) = "x"
  rw [mk_eq_iff_data, extract_codeL_eq]
  decide

/-- Claim C1 (amended): for every text in which the opening fence marker is
absent, extract_code returns the empty string, not an error (the
IndexError of the failed split is swallowed by the bare except); but when
the opening marker is present and no closing marker occurs after it,
extract_code returns the text after the first opening marker, trimmed,
rather than the empty string. -/
theorem claim_C1 (text : String) :
    (occursIn openMarkL text.data = false → extract_code text = "") ∧
    (occursIn openMarkL text.data = true →
      occursIn closeMarkL (dropAfterFirst openMarkL text.data) = false →
      extract_code text = String.mk (stripL (dropAfterFirst openMarkL text.data))) := by
  constructor
  · intro h
    show String.mk (extract_codeL text.data) = ""
    rw [mk_eq_iff_data, extract_codeL_eq, h]
    simp only [Bool.false_eq_true, if_false]
  · intro h1 h2
    show String.mk (extract_codeL text.data) = _
    rw [extract_codeL_eq, h1, if_pos rfl]
    have hno : occursIn openMarkL (dropAfterFirst openMarkL text.data) = false := by
      cases hx : occursIn openMarkL (dropAfterFirst openMarkL text.data) with
      | false => rfl
      | true =>
        exfalso
        have hcl := occursIn_mono
          (by decide : closeMarkL.isPrefixOf openMarkL = true) closeMarkL_ne hx
        rw [h2] at hcl
        exact Bool.noConfusion hcl
    rw [takeUntil_of_not_occurs hno, takeUntil_of_not_occurs h2]

/-- Witness for claim C1 at two concrete inputs: a text with no opening
marker maps to the empty string, and a text with an unterminated fence
maps to the trimmed remainder. -/
theorem claim_C1_witness :
    (occursIn openMarkL "no fences".data = false ∧ extract_code "no fences" = "") ∧
    (occursIn openMarkL "```python x".data = true ∧
      occursIn closeMarkL (dropAfterFirst openMarkL "```python x".data) = false ∧
      extract_code "```python x"
        = String.mk (stripL (dropAfterFirst openMarkL "```python x".data))) :=
  ⟨⟨by decide, (claim_C1 "no fences").1 (by decide)⟩,
   ⟨by decide, by decide, (claim_C1 "```python x").2 (by decide) (by decide)⟩⟩

/-- Claim C2, counterexample: a text without the opening fence marker but
with the rationale header is returned trimmed, not replaced by the
fallback string, refuting the claim that every text without the opening
marker yields the fallback. -/
theorem claim_C2_counterexample :
    occursIn openMarkL "RATIONALE: hi".data = false ∧
    extract_report "RATIONALE: hi" = "RATIONALE: hi" ∧
    ("RATIONALE: hi" : String) ≠ "Report generated successfully. Review the code below." := by
  refine ⟨by decide, ?_, by decide⟩
  show String.mk (extract_reportL "RATIONALE: hi".data) = "RATIONALE: hi"
  rw [mk_eq_iff_data, extract_reportL_eq]
  decide

/-- Claim C2 (amended): extract_report returns the fixed fallback string
exactly when the rationale section header is absent; when the header is
present it returns all text preceding the first opening fence marker,
trimmed (the whole text trimmed if the marker is absent). -/
theorem claim_C2 (text : String) :
    (occursIn rationaleHeaderL text.data = false →
      extract_report text = "Report generated successfully. Review the code below.") ∧
    (occursIn rationaleHeaderL text.data = true →
      extract_report text = String.mk (stripL (takeUntil openMarkL text.data))) := by
  constructor
  · intro h
    show String.mk (extract_reportL text.data) = _
    rw [extract_reportL_eq, h]
    simp only [Bool.false_eq_true, if_false]
    rfl
  · intro h
    show String.mk (extract_reportL text.data) = _
    rw [extract_reportL_eq, h, if_pos rfl]

/-- Witness for claim C2 at two concrete inputs: no header maps to the
fallback, a present header maps to the trimmed text before the first
opening marker. -/
theorem claim_C2_witness :
    (occursIn rationaleHeaderL "plain".data = false ∧
      extract_report "plain" = "Report generated successfully. Review the code below.") ∧
    (occursIn rationaleHeaderL "RATIONALE: ok".data = true ∧
      extract_report "RATIONALE: ok"
        = String.mk (stripL (takeUntil openMarkL "RATIONALE: ok".data))) :=
  ⟨⟨by decide, (claim_C2 "plain").1 (by decide)⟩,
   ⟨by decide, (claim_C2 "RATIONALE: ok").2 (by decide)⟩⟩

/-- Claim C10: both parser operations are total over all inputs: when the
opening marker is absent the first split has a single segment and the
indexing error is mapped to the empty string by the bare except; every
extract_report result is either the fallback or the trimmed text before
the first opening marker; and a text that begins with the opening fence
marker while containing the rationale header elsewhere yields the empty
string (not the fallback). -/
theorem claim_C10 :
    (∀ text : String, occursIn openMarkL text.data = false →
      (splitOnL openMarkL text.data).length < 2 ∧ extract_code text = "") ∧
    (∀ text : String,
      extract_report text = "Report generated successfully. Review the code below." ∨
      extract_report text = String.mk (stripL (takeUntil openMarkL text.data))) ∧
    extract_report "```pythonRATIONALE: ok" = "" := by
  refine ⟨?_, ?_, ?_⟩
  · intro text h
    constructor
    · rw [splitOnL_eq openMarkL_ne, h]
      simp
    · show String.mk (extract_codeL text.data) = ""
      rw [mk_eq_iff_data, extract_codeL_eq, h]
      simp only [Bool.false_eq_true, if_false]
  · intro text
    cases hocc : occursIn rationaleHeaderL text.data with
    | false =>
      left
      show String.mk (extract_reportL text.data) = _
      rw [extract_reportL_eq, hocc]
      simp only [Bool.false_eq_true, if_false]
      rfl
    | true =>
      right
      show String.mk (extract_reportL text.data) = _
      rw [extract_reportL_eq, hocc, if_pos rfl]
  · show String.mk (extract_reportL "```pythonRATIONALE: ok".data) = ""
    rw [mk_eq_iff_data, extract_reportL_eq]
    decide

/-- Witness for claim C10: the universally quantified first part applied at
a concrete input with no opening marker. -/
theorem claim_C10_witness :
    (splitOnL openMarkL "abc".data).length < 2 ∧ extract_code "abc" = "" :=
  claim_C10.1 "abc" (by decide)

theorem digitChar_isDigit (n : Nat) : (digitChar n).isDigit = true := by
  unfold digitChar
  have h10 : n % 10 < 10 := Nat.mod_lt _ (by omega)
  generalize hk : n % 10 = k
  rw [hk] at h10
  interval_cases k <;> rfl

theorem pad2_digits (n : Nat) : ∀ c ∈ pad2 n, c.isDigit = true := by
  intro c hc
  simp only [pad2, List.mem_cons, List.mem_singleton, List.not_mem_nil, or_false] at hc
  rcases hc with rfl | rfl <;> exact digitChar_isDigit _

theorem pad4_digits (n : Nat) : ∀ c ∈ pad4 n, c.isDigit = true := by
  intro c hc
  simp only [pad4, List.mem_cons, List.mem_singleton, List.not_mem_nil, or_false] at hc
  rcases hc with rfl | rfl | rfl | rfl <;> exact digitChar_isDigit _

/-- Claim C3, counterexample: a webhook endpoint answering with status 201,
an HTTP 2xx success status, makes the notifier return false, refuting the
claim that every 2xx-equivalent status yields true (the code compares the
status with 200 only). -/
theorem claim_C3_counterexample :
    send_to_webhook dfScenario ⟨2026, 1, 1, 0, 0, 0⟩ "https://example.com/hook"
      (fun _ => PostResult.response 201) = false ∧
    200 ≤ 201 ∧ 201 < 300 :=
  ⟨rfl, by omega, by omega⟩

/-- Claim C3 (amended): for every table, time, destination and network
behaviour, the notifier returns true exactly when the single POST it
issues receives status exactly 200; every other status (including other
2xx statuses) and every transport failure yields false.  The model is a
total function of the one posted request, so it never raises and never
retries. -/
theorem claim_C3 (df : DataFrame) (now : Timestamp) (url : String)
    (post : WebhookRequest → PostResult) :
    send_to_webhook df now url post = true ↔
      post (webhookRequest df now url) = PostResult.response 200 := by
  unfold send_to_webhook
  cases hp : post (webhookRequest df now url) with
  | response st => simp
  | transportError m => simp

/-- Claim C8: the notifier posts a request with timeout 10 whose body
carries the fixed source tag, the strftime-formatted current time, and
the first at-most-100 rows serialized as column-name/value records; the
timestamp has the shape YYYY-MM-DD HH:MM:SS (four digits, dash, two
digits, dash, two digits, space, two digits, colon, two digits, colon,
two digits). -/
theorem claim_C8 (df : DataFrame) (now : Timestamp) (url : String) :
    (webhookRequest df now url).timeoutSeconds = 10 ∧
    (webhookRequest df now url).body.source = "Smart Data Profiler App" ∧
    (webhookRequest df now url).body.data
      = (df.rows.take 100).map (fun r => df.cols.zip r) ∧
    (webhookRequest df now url).body.data.length ≤ 100 ∧
    (webhookRequest df now url).body.timestamp = strftimeFmt now ∧
    ∃ yy mo dd hh mi ss : List Char,
      (strftimeFmt now).data
        = yy ++ '-' :: mo ++ '-' :: dd ++ ' ' :: hh ++ ':' :: mi ++ ':' :: ss ∧
      yy.length = 4 ∧ mo.length = 2 ∧ dd.length = 2 ∧
      hh.length = 2 ∧ mi.length = 2 ∧ ss.length = 2 ∧
      (∀ c ∈ yy, c.isDigit = true) ∧ (∀ c ∈ mo, c.isDigit = true) ∧
      (∀ c ∈ dd, c.isDigit = true) ∧ (∀ c ∈ hh, c.isDigit = true) ∧
      (∀ c ∈ mi, c.isDigit = true) ∧ (∀ c ∈ ss, c.isDigit = true) := by
  refine ⟨rfl, rfl, rfl, ?_, rfl, ?_⟩
  · show (toRecords (headDF df 100)).length ≤ 100
    simp only [toRecords, headDF, List.length_map, List.length_take]
    omega
  · refine ⟨pad4 now.year, pad2 now.month, pad2 now.day,
      pad2 now.hour, pad2 now.minute, pad2 now.second,
      rfl, rfl, rfl, rfl, rfl, rfl, rfl,
      pad4_digits _, pad2_digits _, pad2_digits _,
      pad2_digits _, pad2_digits _, pad2_digits _⟩

/-- Claim C4: for every table with zero rows, the summary builder computes
no missing-percentage entry (no division is ever performed, since the
per-column missing counts are all zero and the filtered series is empty)
and the rendered missing-data section is the empty-table rendering; the
model is a total function, matching the guarded pandas evaluation that
raises nothing on an empty frame. -/
theorem claim_C4 (df : DataFrame) (h : df.rows = []) :
    missingPct df = [] ∧ missing_summary df = renderMissing [] := by
  have h1 : missingPct df = [] := by
    unfold missingPct
    rw [List.filterMap_eq_nil_iff]
    intro p hp
    have hm : colMissingCount df p.1 = 0 := by
      unfold colMissingCount colValues
      rw [h]
      rfl
    simp [hm]
  refine ⟨h1, ?_⟩
  unfold missing_summary
  rw [h1]

/-- Witness for claim C4: a concrete one-column table with no rows. -/
theorem claim_C4_witness :
    missingPct { cols := ["a"], dtypes := ["int64"], rows := [] } = [] ∧
    missing_summary { cols := ["a"], dtypes := ["int64"], rows := [] }
      = renderMissing [] :=
  claim_C4 { cols := ["a"], dtypes := ["int64"], rows := [] } rfl

/-- Claim C9: on the scenario table (columns id, name, age; three rows; one
missing age) the summary builder reports exactly one missing-percentage
entry, 33.33 percent for age; executing the fillna-mean snippet on it
succeeds and yields a table with no missing age cell and unchanged id and
name columns and unchanged column set. -/
theorem claim_C9 :
    missingPct dfScenario = [("age", (3333 : ℚ) / 100)] ∧
    execPython fillnaAgeSnippet dfScenario
      = ExecOutcome.success (fillnaMean dfScenario "age") ∧
    (colValues (fillnaMean dfScenario "age") 2).all (fun v => !(isMissing v)) = true ∧
    colValues (fillnaMean dfScenario "age") 0 = colValues dfScenario 0 ∧
    colValues (fillnaMean dfScenario "age") 1 = colValues dfScenario 1 ∧
    (fillnaMean dfScenario "age").cols = dfScenario.cols := by
  refine ⟨?_, rfl, by decide, by decide, by decide, rfl⟩
  show missingPct dfScenario = [("age", (3333 : ℚ) / 100)]
  have e1 : missingPct dfScenario
      = [("age", round2 ((1 : ℚ) / 3 * 100))] := by
    simp [missingPct, dfScenario, colMissingCount, colValues, List.enum,
      List.enumFrom, List.countP, List.countP.go, isMissing]
  rw [e1]
  norm_num [round2, round_eq]

/-- Claim C5: whenever the snippet execution raises, the pipeline step
returns the session unchanged (no session key is written) together with
the underlying error message. -/
theorem claim_C5 (execFn : String → DataFrame → ExecOutcome) (s : Session)
    (responseText : String) (m : String)
    (h : execFn (extract_code responseText) s.df_original = ExecOutcome.error m) :
    runAnalysis execFn s responseText = (s, some m) := by
  simp only [runAnalysis, h]

/-- Witness for claim C5: an execution oracle that always fails leaves a
concrete session untouched and surfaces its message. -/
theorem claim_C5_witness :
    runAnalysis (fun _ _ => ExecOutcome.error "boom")
      { df_original := dfScenario, df_clean := none,
        report_text := none, cleaning_code := none } "whatever"
      = ({ df_original := dfScenario, df_clean := none,
           report_text := none, cleaning_code := none }, some "boom") :=
  claim_C5 _ _ _ _ rfl

/-- Claim C7: the empty snippet is a no-op: executing it returns the table
unchanged, and the pipeline step on a response whose extracted snippet is
empty stores the unchanged copy of the original table as the cleaned
table and reports no error. -/
theorem claim_C7 (s : Session) (responseText : String)
    (h : extract_code responseText = "") :
    execPython "" s.df_original = ExecOutcome.success s.df_original ∧
    runAnalysis execPython s responseText =
      ({ s with df_clean := some s.df_original,
                report_text := some (extract_report responseText),
                cleaning_code := some "" }, none) := by
  refine ⟨rfl, ?_⟩
  simp only [runAnalysis, h]
  rfl

/-- Witness for claim C7: a concrete session and a response with no fence
marker; the cleaned table equals the original. -/
theorem claim_C7_witness :
    execPython "" dfScenario = ExecOutcome.success dfScenario ∧
    runAnalysis execPython
      { df_original := dfScenario, df_clean := none,
        report_text := none, cleaning_code := none } "no fences here"
      = ({ df_original := dfScenario, df_clean := some dfScenario,
           report_text := some (extract_report "no fences here"),
           cleaning_code := some "" }, none) := by
  have h : extract_code "no fences here" = "" := by
    show String.mk (extract_codeL "no fences here".data) = ""
    rw [mk_eq_iff_data, extract_codeL_eq]
    decide
  exact claim_C7
    { df_original := dfScenario, df_clean := none,
      report_text := none, cleaning_code := none } "no fences here" h

/-- Claim C6, counterexample: the extracted snippet of the input below is
"x``" (two trailing backticks and no closing fence), and re-wrapping it
in the fence markers merges the trailing backticks with the appended
closing fence, so re-extraction returns "x" instead of the same inner
text: extract_code is not idempotent in the sense of the claim. -/
theorem claim_C6_counterexample :
    extract_code "```pythonx``" = "x``" ∧
    extract_code ("```python" ++ extract_code "```pythonx``" ++ "```") = "x" ∧
    ("x" : String) ≠ "x``" := by
  have h1 : extract_code "```pythonx``" = "x``" := by
    show String.mk (extract_codeL "```pythonx``".data) = "x``"
    rw [mk_eq_iff_data, extract_codeL_eq]
    decide
  refine ⟨h1, ?_, by decide⟩
  rw [h1]
  show String.mk (extract_codeL ("```python" ++ ("x``" : String) ++ "```").data) = "x"
  rw [mk_eq_iff_data, extract_codeL_eq]
  decide

/-- Claim C6 (amended): for every input text, if the output of extract_code
does not end with a backtick character, then wrapping that output in the
opening and closing fence markers and applying extract_code again returns
the same inner text.  (The backtick-ending outputs are exactly the ones
the counterexample exhibits: there the appended closing fence merges with
the trailing backticks and the closing scan cuts early.) -/
theorem claim_C6 (text : String)
    (h : (extract_code text).data.getLast? ≠ some '\x60') :
    extract_code ("```python" ++ extract_code text ++ "```") = extract_code text := by
  show String.mk (extract_codeL ("```python" ++ extract_code text ++ "```").data)
    = extract_code text
  have hdata : ("```python" ++ extract_code text ++ "```").data
      = openMarkL ++ ((extract_code text).data ++ closeMarkL) := by
    rw [String.data_append, String.data_append, List.append_assoc]
    rfl
  rw [hdata]
  have hd2 : (extract_code text).data = extract_codeL text.data := rfl
  rw [hd2] at h ⊢
  rw [extract_code_wrap (extract_codeL_no_close text.data) h, extract_codeL_stripped]
  rfl

/-- Witness for claim C6: a well-formed fenced response whose extracted
snippet "x = 1" does not end in a backtick round-trips unchanged. -/
theorem claim_C6_witness :
    (extract_code "```python x = 1 ```").data.getLast? ≠ some '\x60' ∧
    extract_code ("```python" ++ extract_code "```python x = 1 ```" ++ "```")
      = extract_code "```python x = 1 ```" := by
  have h : (extract_code "```python x = 1 ```").data.getLast? ≠ some '\x60' := by
    show (extract_codeL "```python x = 1 ```".data).getLast? ≠ some '\x60'
    rw [extract_codeL_eq]
    decide
  exact ⟨h, claim_C6 "```python x = 1 ```" h⟩
